import Mathlib

/-!
# LinguaReader spaced-repetition scheduler: a shallow embedding

This file embeds the spaced-repetition core of the LinguaReader repository:

* the pure SRS utilities (`calculateNextReviewDate`, `getItemsDueForReview`,
  `sortItemsByDueDate`, `calculateRetentionScore`) from the SRS utility module;
* the in-memory storage operations touching review state
  (`createVocabularyItem`, `getVocabularyItemsDueForReview`,
  `updateVocabularyItemReviewStatus`) from `server/storage.ts`;
* the `PUT /api/review/:id` boundary validation from `server/routes.ts`.

Modelling conventions:

* A JS `Date` instant is an integer count of milliseconds (`Date := Int`);
  the calendar-day arithmetic `d.setDate(d.getDate() + n)` is modelled as
  adding `n` whole days (`addDays`), ignoring DST irregularities.
* JS numbers carrying familiarity scores are modelled as exact rationals
  (`Rat`); the values exercised here (small integers, 2.5) are exactly
  representable as doubles, so no rounding behaviour is lost.
* The `Map<number, VocabularyItem>` storage backend is an association list;
  `Map.get` is `List.lookup` and `Map.set` replaces in place.
* Fields that are `null`/absent are `Option.none`.
-/

/-- A JS `Date` instant, as milliseconds since the epoch. -/
abbrev Date := Int

/-- Milliseconds in one day. -/
def msPerDay : Int := 86400000

/-- `d.setDate(d.getDate() + n)`: move an instant `n` calendar days forward. -/
def addDays (d : Date) (n : Int) : Date := d + n * msPerDay

/-- A vocabulary entry, after `shared/schema.ts` (`vocabularyItems` table):
nullable columns are `Option`s. -/
structure VocabularyItem where
  id : Nat
  word : String
  language : String
  translation : Option String
  context : Option String
  notes : Option String
  bookId : Option Nat
  familiarityScore : Option Rat
  dateAdded : Date
  lastReviewed : Option Date
  nextReviewDate : Option Date
deriving Repr, DecidableEq

/-- The insertable fields, after `insertVocabularyItemSchema` in
`shared/schema.ts` (omits `id`, `dateAdded`, `lastReviewed`,
`nextReviewDate`). -/
structure InsertVocabularyItem where
  word : String
  language : String
  translation : Option String
  context : Option String
  notes : Option String
  bookId : Option Nat
  familiarityScore : Option Rat
deriving Repr, DecidableEq

/-- The fixed interval table inside `calculateNextReviewDate`:
`{1: 1, 2: 3, 3: 7, 4: 14, 5: 30}`.  JS object lookup at a key not in the
table yields `undefined`, i.e. `none`. -/
def intervals (score : Rat) : Option Int :=
  if score = 1 then some 1
  else if score = 2 then some 3
  else if score = 3 then some 7
  else if score = 4 then some 14
  else if score = 5 then some 30
  else none

/-- `intervals[familiarityScore] || intervals[1]`: the table value, falling
back to the score-1 interval (1 day) off the table.  (No table value is
falsy, so `||` is exactly the `undefined` fallback.) -/
def intervalFor (score : Rat) : Int := (intervals score).getD 1

/-- `calculateNextReviewDate` from the SRS utility module: the last-review
instant plus the interval (in days) for the score. -/
def calculateNextReviewDate (familiarityScore : Rat) (lastReviewed : Date) : Date :=
  addDays lastReviewed (intervalFor familiarityScore)

/-- The filter predicate of `getItemsDueForReview`: a set `nextReviewDate`
in the past or right now is due; an unset one is assumed due. -/
def isDueItem (now : Date) (item : VocabularyItem) : Bool :=
  match item.nextReviewDate with
  | some reviewDate => reviewDate ≤ now
  | none => true

/-- `getItemsDueForReview` from the SRS utility module. -/
def getItemsDueForReview (now : Date) (vocabularyItems : List VocabularyItem) :
    List VocabularyItem :=
  vocabularyItems.filter (isDueItem now)

/-- The comparator of `sortItemsByDueDate`, read as "`a` may stay before
`b`", i.e. the JS comparator returns `≤ 0`: an entry without
`nextReviewDate` comes first (`-1`), one with a date yields to a dateless
one (`1`), otherwise ascending by date (`ta - tb`). -/
def dueCmpLe (a b : VocabularyItem) : Bool :=
  match a.nextReviewDate, b.nextReviewDate with
  | none, _ => true
  | some _, none => false
  | some ta, some tb => ta ≤ tb

/-- `sortItemsByDueDate` from the SRS utility module: a stable sort of a
copy of the input under the comparator. -/
def sortItemsByDueDate (vocabularyItems : List VocabularyItem) : List VocabularyItem :=
  vocabularyItems.mergeSort dueCmpLe

/-- The sort key `sortItemsByDueDate` orders by: a missing `nextReviewDate`
is below every date. -/
def dueKey (item : VocabularyItem) : WithBot Int :=
  match item.nextReviewDate with
  | none => ⊥
  | some t => (t : WithBot Int)

/-- JS `Math.round`: round half toward positive infinity. -/
def jsRound (q : Rat) : Int := ⌊q + 1 / 2⌋

/-- The filter predicate of `calculateRetentionScore`:
`item.familiarityScore >= 3`.  An unset score (`undefined`/`null`) never
compares `≥ 3` in JS. -/
def isKnownItem (item : VocabularyItem) : Bool :=
  match item.familiarityScore with
  | some s => 3 ≤ s
  | none => false

/-- `calculateRetentionScore` from the SRS utility module:
`Math.round((knownItems / totalItems) * 100)`, with `0` for an empty
collection. -/
def calculateRetentionScore (vocabularyItems : List VocabularyItem) : Int :=
  if vocabularyItems.length = 0 then 0
  else
    let knownItems : Int := (vocabularyItems.filter isKnownItem).length
    let totalItems : Int := vocabularyItems.length
    jsRound (((knownItems : Rat) / (totalItems : Rat)) * 100)

/-- The `Map<number, VocabularyItem>` backend of `MemStorage`, as an
association list from id to entry. -/
abbrev VocabMap := List (Nat × VocabularyItem)

/-- `Map.set` on the backend: replace the entry at the key in place, or
append when absent. -/
def mapSet (m : VocabMap) (k : Nat) (v : VocabularyItem) : VocabMap :=
  if (m.lookup k).isSome then
    m.map (fun p => if p.1 = k then (k, v) else p)
  else m ++ [(k, v)]

/-- `createVocabularyItem` from `server/storage.ts`: builds the new entry
with `dateAdded`, `lastReviewed` and `nextReviewDate` all set to `now` and
`familiarityScore := item.familiarityScore ?? null`. -/
def createVocabularyItem (nextId : Nat) (item : InsertVocabularyItem) (now : Date) :
    VocabularyItem :=
  { id := nextId
    word := item.word
    language := item.language
    translation := item.translation
    context := item.context
    notes := item.notes
    bookId := item.bookId
    familiarityScore := item.familiarityScore
    dateAdded := now
    lastReviewed := some now
    nextReviewDate := some now }

/-- `getVocabularyItemsDueForReview` from `server/storage.ts`: filters the
stored entries by `item.nextReviewDate && item.nextReviewDate <= now`; a
`null` date is falsy, so entries without one are excluded. -/
def getVocabularyItemsDueForReview (m : VocabMap) (now : Date) : List VocabularyItem :=
  (m.map Prod.snd).filter (fun item =>
    match item.nextReviewDate with
    | some d => d ≤ now
    | none => false)

/-- Helper: the largest `n ≤ bound` with `n ^ den ≤ target` (0 when none). -/
def maxPowLE (den target : Nat) : Nat → Nat
  | 0 => 0
  | n + 1 => if (n + 1) ^ den ≤ target then n + 1 else maxPowLE den target n

/-- `Math.pow(2, s)` as truncated by `setDate` (which truncates a fractional
day count toward zero): for `s ≥ 0` this is `⌊2 ^ s⌋`, computed for the
rational `s = num / den` as the largest `n` with `n ^ den ≤ 2 ^ num`; for
`s < 0` the power is in `(0, 1)` and truncates to `0`. -/
def jsPow2Trunc (s : Rat) : Int :=
  if 0 ≤ s.num then (maxPowLE s.den (2 ^ s.num.toNat) (2 ^ s.num.toNat) : Int)
  else 0

/-- `updateVocabularyItemReviewStatus` from `server/storage.ts`: looks the
entry up (returning `undefined` and leaving the map untouched when absent),
and otherwise rewrites exactly `familiarityScore`, `lastReviewed` and
`nextReviewDate`, the last as `now` plus `Math.pow(2, familiarityScore)`
calendar days ("Simple implementation: days = 2^familiarityScore"). -/
def updateVocabularyItemReviewStatus (m : VocabMap) (id : Nat) (familiarityScore : Rat)
    (now : Date) : Option VocabularyItem × VocabMap :=
  match m.lookup id with
  | none => (none, m)
  | some item =>
    let nextReviewDate := addDays now (jsPow2Trunc familiarityScore)
    let updatedItem := { item with
      familiarityScore := some familiarityScore
      lastReviewed := some now
      nextReviewDate := some nextReviewDate }
    (some updatedItem, mapSet m id updatedItem)

/-- The entry produced by `updateVocabularyItemReviewStatus` for an entry
`e` reviewed with score `s` at instant `t`: exactly `familiarityScore`,
`lastReviewed` and `nextReviewDate` are rewritten, the last to `t` plus
`2 ^ s` (truncated) calendar days. -/
def reviewedEntry (e : VocabularyItem) (s : Rat) (t : Date) : VocabularyItem :=
  { e with
    familiarityScore := some s
    lastReviewed := some t
    nextReviewDate := some (addDays t (jsPow2Trunc s)) }

/-- The outcome of `PUT /api/review/:id` in `server/routes.ts`. -/
inductive ReviewResponse where
  | ok (item : VocabularyItem)
  | badRequest
  | notFound
deriving Repr, DecidableEq

/-- The HTTP status code of each outcome. -/
def ReviewResponse.status : ReviewResponse → Nat
  | .ok _ => 200
  | .badRequest => 400
  | .notFound => 404

/-- The `PUT /api/review/:id` handler from `server/routes.ts`: the body's
`familiarityScore` is `none` when not a number; the handler rejects with
400 when it is missing, `< 1` or `> 5`, answers 404 when the storage update
finds no entry, and 200 with the updated entry otherwise. -/
def putReviewRoute (m : VocabMap) (id : Nat) (body : Option Rat) (now : Date) :
    ReviewResponse × VocabMap :=
  match body with
  | none => (.badRequest, m)
  | some familiarityScore =>
    if familiarityScore < 1 ∨ 5 < familiarityScore then (.badRequest, m)
    else
      match updateVocabularyItemReviewStatus m id familiarityScore now with
      | (none, m') => (.notFound, m')
      | (some updatedItem, m') => (.ok updatedItem, m')

/-- A concrete entry for witnesses and counterexamples. -/
def sampleItem : VocabularyItem :=
  { id := 1
    word := "palabra"
    language := "es"
    translation := some "word"
    context := none
    notes := none
    bookId := some 2
    familiarityScore := some 2
    dateAdded := 0
    lastReviewed := none
    nextReviewDate := none }

/-- A second concrete entry, stored under another id. -/
def otherItem : VocabularyItem :=
  { id := 2
    word := "livre"
    language := "fr"
    translation := none
    context := some "un livre ouvert"
    notes := none
    bookId := none
    familiarityScore := some 4
    dateAdded := 10
    lastReviewed := some 10
    nextReviewDate := some (addDays 10 14) }

/-! ## Helper lemmas -/

lemma dueCmpLe_iff (a b : VocabularyItem) : dueCmpLe a b = true ↔ dueKey a ≤ dueKey b := by
  cases ha : a.nextReviewDate <;> cases hb : b.nextReviewDate <;>
    simp [dueCmpLe, dueKey, ha, hb]

lemma dueCmpLe_total (a b : VocabularyItem) : dueCmpLe a b || dueCmpLe b a := by
  cases ha : a.nextReviewDate <;> cases hb : b.nextReviewDate <;> simp [dueCmpLe, ha, hb]
  exact le_total _ _

lemma dueCmpLe_trans (a b c : VocabularyItem) :
    dueCmpLe a b → dueCmpLe b c → dueCmpLe a c := by
  cases ha : a.nextReviewDate <;> cases hb : b.nextReviewDate <;>
    cases hc : c.nextReviewDate <;> simp [dueCmpLe, ha, hb, hc]
  exact fun h1 h2 => le_trans h1 h2

lemma lookup_replace_ne (k' k : Nat) (v : VocabularyItem) (hk : k' ≠ k) (m : VocabMap) :
    (m.map (fun p => if p.1 = k then (k, v) else p)).lookup k' = m.lookup k' := by
  induction m with
  | nil => rfl
  | cons p rest ih =>
    obtain ⟨a, b⟩ := p
    by_cases hak : a = k
    · subst hak
      have hne : (k' == a) = false := beq_eq_false_iff_ne.mpr hk
      simp only [List.map_cons]
      rw [if_pos trivial]
      simp [List.lookup, hne, ih]
    · simp only [List.map_cons]
      rw [if_neg hak]
      cases hq : (k' == a) <;> simp [List.lookup, hq, ih]

lemma lookup_append_single_ne (k' k : Nat) (v : VocabularyItem) (hk : k' ≠ k)
    (m : VocabMap) : (m ++ [(k, v)]).lookup k' = m.lookup k' := by
  induction m with
  | nil =>
    have hne : (k' == k) = false := beq_eq_false_iff_ne.mpr hk
    simp [List.lookup, hne]
  | cons p rest ih =>
    obtain ⟨a, b⟩ := p
    cases hq : (k' == a) <;> simp [List.lookup, hq, ih]

lemma lookup_mapSet_ne (m : VocabMap) (k k' : Nat) (v : VocabularyItem) (hk : k' ≠ k) :
    (mapSet m k v).lookup k' = m.lookup k' := by
  unfold mapSet
  split
  · exact lookup_replace_ne k' k v hk m
  · exact lookup_append_single_ne k' k v hk m

/-! ## The claims -/

/-- C3: the interval policy is total: on `{1,2,3,4,5}` it returns the table
values `1, 3, 7, 14, 30`, and on every integer outside that set it falls
back to the score-1 interval, 1 day, without error. -/
theorem interval_policy_table_and_fallback (s : Int) :
    intervalFor 1 = 1 ∧ intervalFor 2 = 3 ∧ intervalFor 3 = 7 ∧
    intervalFor 4 = 14 ∧ intervalFor 5 = 30 ∧
    (s ≠ 1 → s ≠ 2 → s ≠ 3 → s ≠ 4 → s ≠ 5 → intervalFor (s : Rat) = 1) := by
  refine ⟨by decide, by decide, by decide, by decide, by decide, ?_⟩
  intro h1 h2 h3 h4 h5
  have c1 : ((s : Rat)) ≠ 1 := by exact_mod_cast h1
  have c2 : ((s : Rat)) ≠ 2 := by exact_mod_cast h2
  have c3 : ((s : Rat)) ≠ 3 := by exact_mod_cast h3
  have c4 : ((s : Rat)) ≠ 4 := by exact_mod_cast h4
  have c5 : ((s : Rat)) ≠ 5 := by exact_mod_cast h5
  simp [intervalFor, intervals, c1, c2, c3, c4, c5]

/-- Witness for C3 at the out-of-table score 7. -/
theorem interval_policy_table_and_fallback_witness : intervalFor ((7 : Int) : Rat) = 1 :=
  (interval_policy_table_and_fallback 7).2.2.2.2.2 (by decide) (by decide) (by decide)
    (by decide) (by decide)

/-- C5: the retention score of a collection is
`round(100 * |score ≥ 3| / |collection|)` (round half up, as `Math.round`),
an integer in `[0, 100]`, and `0` on the empty collection. -/
theorem retention_score_formula_and_bounds (l : List VocabularyItem) :
    calculateRetentionScore [] = 0 ∧
    (l ≠ [] → calculateRetentionScore l =
      jsRound (100 * ((l.filter isKnownItem).length : Rat) / (l.length : Rat))) ∧
    0 ≤ calculateRetentionScore l ∧ calculateRetentionScore l ≤ 100 := by
  have hformula : ∀ l' : List VocabularyItem, l' ≠ [] →
      calculateRetentionScore l' =
        jsRound (100 * ((l'.filter isKnownItem).length : Rat) / (l'.length : Rat)) := by
    intro l' hne
    have hlen : ¬ l'.length = 0 := by simp [List.length_eq_zero]; exact hne
    unfold calculateRetentionScore
    rw [if_neg hlen]
    push_cast
    ring_nf
  refine ⟨rfl, hformula l, ?_, ?_⟩
  · by_cases hl : l = []
    · subst hl; decide
    · rw [hformula l hl]
      unfold jsRound
      have h0 : (0 : Rat) ≤
          100 * ((l.filter isKnownItem).length : Rat) / (l.length : Rat) + 1 / 2 := by
        positivity
      exact Int.floor_nonneg.mpr h0
  · by_cases hl : l = []
    · subst hl; decide
    · rw [hformula l hl]
      unfold jsRound
      have hlen : l.length ≠ 0 := by simp [List.length_eq_zero]; exact hl
      have hlenpos : (0 : Rat) < (l.length : Rat) := by
        exact_mod_cast Nat.pos_of_ne_zero hlen
      have hk : ((l.filter isKnownItem).length : Rat) ≤ (l.length : Rat) := by
        exact_mod_cast List.length_filter_le _ _
      have hle : 100 * ((l.filter isKnownItem).length : Rat) / (l.length : Rat) ≤ 100 := by
        rw [div_le_iff₀ hlenpos]
        nlinarith
      have hfl : ⌊100 * ((l.filter isKnownItem).length : Rat) / (l.length : Rat) + 1 / 2⌋
          < 101 := by
        apply Int.floor_lt.mpr
        push_cast
        linarith
      omega

/-- A four-entry collection with scores 2, 3, 4, 5 (scenario C of the
spec). -/
def fourItems : List VocabularyItem :=
  [{ sampleItem with familiarityScore := some 2 },
   { sampleItem with familiarityScore := some 3 },
   { sampleItem with familiarityScore := some 4 },
   { sampleItem with familiarityScore := some 5 }]

/-- Witness for C5 on `fourItems` (scenario C of the spec: 75%). -/
theorem retention_score_formula_and_bounds_witness :
    calculateRetentionScore fourItems = jsRound (100 * (3 : Rat) / (4 : Rat)) := by
  have h := (retention_score_formula_and_bounds fourItems).2.1 (by decide)
  rw [h]
  have h3 : (fourItems.filter isKnownItem).length = 3 := by decide
  have h4 : fourItems.length = 4 := by decide
  rw [h3, h4]
  norm_num

/-- C6: due-date sorting permutes the input (a fresh sequence with the same
entries) so that every entry without a `nextReviewDate` precedes every
entry with one and the dated entries appear in ascending date order — i.e.
the output is pairwise ordered under the missing-dates-first key. -/
theorem sort_by_due_date_order (items : List VocabularyItem) :
    (sortItemsByDueDate items).Perm items ∧
    (sortItemsByDueDate items).Pairwise (fun a b => dueKey a ≤ dueKey b) :=
  ⟨List.mergeSort_perm items dueCmpLe,
   (List.sorted_mergeSort dueCmpLe_trans dueCmpLe_total items).imp
     (fun h => (dueCmpLe_iff _ _).mp h)⟩

/-- C9: due-date sorting is idempotent: sorting an already-sorted sequence
reproduces it element for element. -/
theorem sort_by_due_date_idempotent (items : List VocabularyItem) :
    sortItemsByDueDate (sortItemsByDueDate items) = sortItemsByDueDate items :=
  List.mergeSort_of_sorted
    (List.sorted_mergeSort dueCmpLe_trans dueCmpLe_total items)

/-- C2 (amended): `getItemsDueForReview` selects exactly the entries whose
`nextReviewDate` is unset or `≤ now`; the storage query
`getVocabularyItemsDueForReview` instead selects exactly the entries whose
`nextReviewDate` is set and `≤ now`, excluding entries with it unset. -/
theorem due_selection_characterization (items : List VocabularyItem) (m : VocabMap)
    (now : Date) (e : VocabularyItem) :
    (e ∈ getItemsDueForReview now items ↔
      e ∈ items ∧ (e.nextReviewDate = none ∨ ∃ d, e.nextReviewDate = some d ∧ d ≤ now)) ∧
    (e ∈ getVocabularyItemsDueForReview m now ↔
      e ∈ m.map Prod.snd ∧ ∃ d, e.nextReviewDate = some d ∧ d ≤ now) := by
  constructor
  · simp only [getItemsDueForReview, List.mem_filter]
    refine and_congr_right fun _ => ?_
    cases h : e.nextReviewDate <;> simp [isDueItem, h]
  · simp only [getVocabularyItemsDueForReview, List.mem_filter]
    refine and_congr_right fun _ => ?_
    cases h : e.nextReviewDate <;> simp [h]

/-- Counterexample to C2 as stated: an entry with unset `nextReviewDate` is
selected by `getItemsDueForReview` but not by the storage query. -/
theorem due_selection_storage_excludes_unset :
    sampleItem ∈ getItemsDueForReview 0 [sampleItem] ∧
    getVocabularyItemsDueForReview [(1, sampleItem)] 0 = [] := by
  decide

/-- C4 (amended): a newly created entry carries the supplied
`familiarityScore` (unset when none is supplied), but `lastReviewed` and
`nextReviewDate` are both set to the creation instant, as is `dateAdded`. -/
theorem create_item_initial_state (nextId : Nat) (ins : InsertVocabularyItem) (now : Date) :
    (createVocabularyItem nextId ins now).familiarityScore = ins.familiarityScore ∧
    (createVocabularyItem nextId ins now).lastReviewed = some now ∧
    (createVocabularyItem nextId ins now).nextReviewDate = some now ∧
    (createVocabularyItem nextId ins now).dateAdded = now :=
  ⟨rfl, rfl, rfl, rfl⟩

/-- A concrete insertion payload without a familiarity score. -/
def sampleInsert : InsertVocabularyItem :=
  { word := "hola"
    language := "es"
    translation := none
    context := none
    notes := none
    bookId := none
    familiarityScore := none }

/-- Counterexample to C4 as stated: creation at instant 5 leaves neither
review timestamp unset. -/
theorem create_item_sets_review_timestamps :
    (createVocabularyItem 1 sampleInsert 5).lastReviewed ≠ none ∧
    (createVocabularyItem 1 sampleInsert 5).nextReviewDate ≠ none := by
  decide

lemma update_found (m : VocabMap) (id : Nat) (e : VocabularyItem) (s : Rat) (t : Date)
    (h : m.lookup id = some e) :
    updateVocabularyItemReviewStatus m id s t =
      (some (reviewedEntry e s t), mapSet m id (reviewedEntry e s t)) := by
  unfold updateVocabularyItemReviewStatus reviewedEntry
  rw [h]

/-- C1 (amended): the pure transition `calculateNextReviewDate` follows the
fixed interval table (1, 3, 7, 14, 30 days for scores 1–5); the
storage-backed update sets exactly `familiarityScore = s`,
`lastReviewed = t` and `nextReviewDate = t` plus `⌊2 ^ s⌋` days — its own
`2^familiarityScore` schedule, not the interval table. -/
theorem review_transition_effect (m : VocabMap) (id : Nat) (e : VocabularyItem)
    (s : Rat) (t t' : Date) (h : m.lookup id = some e) :
    (calculateNextReviewDate 1 t' = addDays t' 1 ∧
     calculateNextReviewDate 2 t' = addDays t' 3 ∧
     calculateNextReviewDate 3 t' = addDays t' 7 ∧
     calculateNextReviewDate 4 t' = addDays t' 14 ∧
     calculateNextReviewDate 5 t' = addDays t' 30) ∧
    (updateVocabularyItemReviewStatus m id s t).1 = some (reviewedEntry e s t) ∧
    (reviewedEntry e s t).familiarityScore = some s ∧
    (reviewedEntry e s t).lastReviewed = some t ∧
    (reviewedEntry e s t).nextReviewDate = some (addDays t (jsPow2Trunc s)) := by
  refine ⟨⟨?_, ?_, ?_, ?_, ?_⟩, ?_, rfl, rfl, rfl⟩
  · norm_num [calculateNextReviewDate, intervalFor, intervals]
  · norm_num [calculateNextReviewDate, intervalFor, intervals]
  · norm_num [calculateNextReviewDate, intervalFor, intervals]
  · norm_num [calculateNextReviewDate, intervalFor, intervals]
  · norm_num [calculateNextReviewDate, intervalFor, intervals]
  · rw [update_found m id e s t h]

/-- Witness for C1 (amended) at score 2, instant 0, on a one-entry store. -/
theorem review_transition_effect_witness :
    (updateVocabularyItemReviewStatus [(1, sampleItem)] 1 2 0).1 =
      some (reviewedEntry sampleItem 2 0) :=
  (review_transition_effect [(1, sampleItem)] 1 sampleItem 2 0 0 (by decide)).2.1

/-- Counterexample to C1 as stated: at score 3 the interval table says 7
days but the storage-backed update schedules 8 (= 2 ^ 3) days. -/
theorem review_transition_table_counterexample :
    intervalFor 3 = 7 ∧ jsPow2Trunc 3 = 8 ∧
    (updateVocabularyItemReviewStatus [(1, sampleItem)] 1 3 0).1 ≠
      some { sampleItem with familiarityScore := some 3, lastReviewed := some 0, nextReviewDate := some (addDays 0 (intervalFor 3)) } :=
  ⟨by decide, by decide, by decide⟩

/-- C7: a review for an id absent from the backing store returns
`undefined` from storage and a 404 from the route, with the store left
exactly as it was: no partial update. -/
theorem review_missing_id_not_found (m : VocabMap) (id : Nat) (s : Rat) (t : Date)
    (h : m.lookup id = none) :
    updateVocabularyItemReviewStatus m id s t = (none, m) ∧
    (¬(s < 1 ∨ 5 < s) → putReviewRoute m id (some s) t = (.notFound, m)) := by
  have h1 : updateVocabularyItemReviewStatus m id s t = (none, m) := by
    unfold updateVocabularyItemReviewStatus
    rw [h]
  refine ⟨h1, fun hs => ?_⟩
  simp [putReviewRoute, hs, h1]

/-- Witness for C7: id 1 is absent from a store holding only id 2. -/
theorem review_missing_id_not_found_witness :
    putReviewRoute [(2, otherItem)] 1 (some 3) 0 = (.notFound, [(2, otherItem)]) :=
  (review_missing_id_not_found [(2, otherItem)] 1 3 0 (by decide)).2 (by norm_num)

/-- C8: the review update keeps `dateAdded`, `word`, `language`, `bookId`,
`context`, `translation`, `notes` (and `id`) of the targeted entry, and
every other stored entry is read back unchanged. -/
theorem review_frame_conditions (m : VocabMap) (id : Nat) (e : VocabularyItem) (s : Rat)
    (t : Date) (h : m.lookup id = some e) :
    (∃ u, (updateVocabularyItemReviewStatus m id s t).1 = some u ∧
      u.dateAdded = e.dateAdded ∧ u.word = e.word ∧ u.language = e.language ∧
      u.bookId = e.bookId ∧ u.context = e.context ∧ u.translation = e.translation ∧
      u.notes = e.notes ∧ u.id = e.id) ∧
    (∀ id' : Nat, id' ≠ id →
      (updateVocabularyItemReviewStatus m id s t).2.lookup id' = m.lookup id') := by
  rw [update_found m id e s t h]
  exact ⟨⟨_, rfl, rfl, rfl, rfl, rfl, rfl, rfl, rfl, rfl⟩,
    fun id' hid => lookup_mapSet_ne m id id' _ hid⟩

/-- Witness for C8: updating id 1 leaves the entry stored under id 2
untouched. -/
theorem review_frame_conditions_witness :
    (updateVocabularyItemReviewStatus [(1, sampleItem), (2, otherItem)] 1 3 0).2.lookup 2 =
      some otherItem :=
  ((review_frame_conditions [(1, sampleItem), (2, otherItem)] 1 sampleItem 3 0
      (by decide)).2 2 (by decide)).trans (by decide)

/-- C10 (amended): the boundary rejects with 400 exactly when the score is
missing (not a number), below 1 or above 5; an accepted score — including
non-integers such as 2.5 — is forwarded to the storage update, which
schedules `⌊2 ^ s⌋` days ahead (5 days for 2.5) and never consults the
interval table; only `calculateNextReviewDate` would map 2.5 to the 1-day
fallback. -/
theorem review_route_boundary (m : VocabMap) (id : Nat) (t : Date) (s : Rat) :
    putReviewRoute m id none t = (.badRequest, m) ∧
    (s < 1 ∨ 5 < s → putReviewRoute m id (some s) t = (.badRequest, m)) ∧
    (1 ≤ s → s ≤ 5 → ∀ e, m.lookup id = some e →
      (putReviewRoute m id (some s) t).1 = .ok (reviewedEntry e s t)) ∧
    jsPow2Trunc (5 / 2) = 5 ∧ intervalFor (5 / 2) = 1 := by
  refine ⟨rfl, fun hs => ?_, fun h1 h5 e he => ?_, ?_, ?_⟩
  · simp [putReviewRoute, hs]
  · have hno : ¬(s < 1 ∨ 5 < s) := by
      rintro (hlt | hgt)
      · linarith
      · linarith
    simp [putReviewRoute, hno, update_found m id e s t he]
  · norm_num [jsPow2Trunc]
    decide
  · norm_num [intervalFor, intervals]

/-- Witness for C10 (amended): the non-integer score 2.5 passes validation
and the updated entry is scheduled by the 2-power rule. -/
theorem review_route_boundary_witness :
    (putReviewRoute [(1, sampleItem)] 1 (some (5 / 2)) 0).1 =
      .ok (reviewedEntry sampleItem (5 / 2) 0) :=
  (review_route_boundary [(1, sampleItem)] 1 0 (5 / 2)).2.2.1 (by norm_num) (by norm_num)
    sampleItem (by decide)

/-- Counterexample to C10 as stated: forwarding the accepted score 2.5 does
not produce the 1-day fallback schedule (the update yields 5 days ahead,
not `intervalFor (5/2) = 1` day). -/
theorem review_route_fallback_counterexample :
    (putReviewRoute [(1, sampleItem)] 1 (some (5 / 2)) 0).1 ≠
      .ok { sampleItem with familiarityScore := some (5 / 2), lastReviewed := some 0, nextReviewDate := some (addDays 0 (intervalFor (5 / 2))) } := by
  have hv : ¬((5 / 2 : Rat) < 1 ∨ 5 < (5 / 2 : Rat)) := by norm_num
  have hp : jsPow2Trunc (5 / 2) = 5 := by
    norm_num [jsPow2Trunc]
    decide
  have hi : intervalFor (5 / 2) = 1 := by norm_num [intervalFor, intervals]
  have hu := update_found [(1, sampleItem)] 1 sampleItem (5 / 2) 0 (by decide)
  simp only [putReviewRoute]
  rw [if_neg hv, hu]
  simp [reviewedEntry, hp, hi, addDays, msPerDay, sampleItem]
